import Mathlib

/-!
Shallow embedding of the incremental polling / aggregation engine of
`rocketchat.go` (package rocketapi), together with proofs about the
behaviours described in the repository's design specification.

Modelling conventions:
* Go slices become Lean `List`s; Go strings become Lean `String`s.
* The `Logger` calls performed by the loop are recorded as an explicit list
  of `LogEvent`s instead of writing to stdout.
* The blocking channel send `msgChan <- msg` is recorded by appending the
  message to an `emits` list (the stream seen by the consumer, in order).
* Real time is modelled by an abstract monotone clock (a `Nat`): every
  external call (each HTTP request and each blocking channel send) advances
  the clock by one unit, `time.Now()` reads the current clock value, and
  `time.Sleep(d)` advances the clock by `d`.  The RFC3339 formatting of a
  timestamp is abstracted away: the clock value itself is passed where the
  Go code passes `now.Format(time.RFC3339)`.
* The HTTP transport and JSON decoding are external collaborators: each
  history fetch is an environment function returning either an error string
  or a decoded response, and the two listing calls of `getCurrentRoom` are
  environment values of the corresponding response types.
-/

namespace Rocket

/-- Equality of `Except` values is decidable when both component types
have decidable equality; needed to evaluate concrete environments. -/
instance instDecEqExcept {ε α : Type} [DecidableEq ε] [DecidableEq α] :
    DecidableEq (Except ε α) := fun a b =>
  match a, b with
  | Except.error e, Except.error f =>
    if h : e = f then isTrue (by rw [h])
    else isFalse fun hc => h (Except.error.inj hc)
  | Except.error _, Except.ok _ => isFalse fun hc => Except.noConfusion hc
  | Except.ok _, Except.error _ => isFalse fun hc => Except.noConfusion hc
  | Except.ok x, Except.ok y =>
    if h : x = y then isTrue (by rw [h])
    else isFalse fun hc => h (Except.ok.inj hc)

/-- Author field of a message: the nested struct `U` of `Message` in
rocketchat.go, with fields `_id` and `username`. -/
structure MessageU where
  id : String
  username : String
deriving DecidableEq

/-- The `Message` struct of rocketchat.go: `_id`, `msg`, `ts`,
`_updatedAt`, nested author `u`, and room id `rid`. -/
structure Message where
  id : String
  msg : String
  ts : String
  updatedAt : String
  u : MessageU
  rid : String
deriving DecidableEq

/-- The `ChannelsHistoryResponse` struct: a list of messages and a
`success` flag. -/
structure ChannelsHistoryResponse where
  messages : List Message
  success : Bool
deriving DecidableEq

/-- One entry of `RoomsGetResponse.Update`: `_id`, `name`, `default`. -/
structure RoomUpdate where
  id : String
  name : String
  deflt : Bool
deriving DecidableEq

/-- The `RoomsGetResponse` struct returned by `GetRoom`. -/
structure RoomsGetResponse where
  update : List RoomUpdate
  status : String
deriving DecidableEq

/-- One entry of `ImList.IMs`: `_id` and `msgs`. -/
structure IMEntry where
  id : String
  msgs : Int
deriving DecidableEq

/-- The `ImList` struct returned by `GetIMList`. -/
structure ImList where
  ims : List IMEntry
  success : Bool
deriving DecidableEq

/-- The unexported `currentRoom` struct: channel ids and IM room ids. -/
structure currentRoom where
  channels : List String
  ims : List String
deriving DecidableEq

/-- Helper of `func index(arr []string, data string) int`: scan with the
running position. -/
def indexAux (arr : List String) (data : String) (idx : Nat) : Int :=
  match arr with
  | [] => -1
  | item :: rest => if item = data then Int.ofNat idx else indexAux rest data (idx + 1)

/-- The `index` function of rocketchat.go: position of `data` in `arr`, or
`-1` when absent.  The loop tests membership via `index(...) == -1`. -/
def index (arr : List String) (data : String) : Int :=
  indexAux arr data 0

/-- The dedup-window record step inlined in `GetIncomingMessage`
(lines 330-333 and 350-353): append the id, and when the resulting length
exceeds `maxSize`, keep only the suffix from position `maxSize/2`
(`lastMessageID = lastMessageID[maxSize/2:]`). -/
def recordID (maxSize : Nat) (lastMessageID : List String) (id : String) : List String :=
  let l := lastMessageID ++ [id]
  if l.length > maxSize then l.drop (maxSize / 2) else l

/-- Result of recording a sequence of ids into an initially empty dedup
window with bound `maxSize`. -/
def recordSeq (maxSize : Nat) (ids : List String) : List String :=
  ids.foldl (recordID maxSize) []

/-- Log events produced through the `Logger` interface by the polling loop:
`Warn(err)` on a directory failure, `Debugf("Current room: %v", current)`
once per cycle, and `Debugf("msg: %s", msg)` per fetched message.  The
event carries the logged datum; string formatting is abstracted. -/
inductive LogEvent where
  | warn : String → LogEvent
  | debugCurrentRoom : currentRoom → LogEvent
  | debugMsg : Message → LogEvent
deriving DecidableEq

/-- Whether a log event is a `Logger.Warn` call. -/
def isWarn : LogEvent → Bool
  | LogEvent.warn _ => true
  | _ => false

/-- Which of the two history endpoints a fetch call went to. -/
inductive RoomKind where
  | im : RoomKind
  | channel : RoomKind
deriving DecidableEq

/-- Record of one history-fetch HTTP call made by the loop: endpoint kind,
room id, and the `latest`, `oldest`, `unreads` arguments passed (the loop
always passes `latest = ""` and `unreads = true`; `oldest` is the abstract
timestamp standing for `now.Format(time.RFC3339)`). -/
structure FetchCall where
  kind : RoomKind
  roomID : String
  latest : String
  oldest : Nat
  unreads : Bool
deriving DecidableEq

/-- Observable output of a processing step: messages sent to the channel,
log events, HTTP fetch calls made, the dedup window afterwards, and the
clock afterwards. -/
structure StepOut where
  emits : List Message
  logs : List LogEvent
  calls : List FetchCall
  window : List String
  clock : Nat
deriving DecidableEq

/-- Cross-cycle state of the goroutine in `GetIncomingMessage`: the `now`
cursor and the `lastMessageID` dedup window. -/
structure LoopState where
  now : Nat
  lastMessageID : List String
deriving DecidableEq

/-- Observable output of one full cycle of the loop, together with the
state and clock with which the next cycle starts. -/
structure CycleOut where
  emits : List Message
  logs : List LogEvent
  calls : List FetchCall
  state : LoopState
  clock : Nat
deriving DecidableEq

/-- Environment of one polling cycle: the results the external HTTP
collaborators would return during that cycle.  `roomsResp` and `imListResp`
feed `getCurrentRoom`; `imFetch`/`chFetch` map a room id and the `oldest`
bound to the outcome of `getIMHistory`/`getChannelsHistory`. -/
structure CycleEnv where
  roomsResp : Except String RoomsGetResponse
  imListResp : Except String ImList
  imFetch : String → Nat → Except String ChannelsHistoryResponse
  chFetch : String → Nat → Except String ChannelsHistoryResponse

/-- The `getCurrentRoom` method: call `GetRoom`, on success map the update
entries to their ids, then call `GetIMList` and map the IM entries to their
ids; either failure propagates (returning the zero value `currentRoom{}`
alongside, which the caller then uses). -/
def getCurrentRoomM (env : CycleEnv) : Except String currentRoom :=
  match env.roomsResp with
  | Except.error e => Except.error e
  | Except.ok rr =>
    match env.imListResp with
    | Except.error e => Except.error e
    | Except.ok il =>
      Except.ok ⟨rr.update.map (fun u => u.id), il.ims.map (fun i => i.id)⟩

/-- Number of HTTP calls `getCurrentRoom` makes: one (`GetRoom`) when the
room listing already fails, two (`GetRoom` then `GetIMList`) otherwise. -/
def getCurrentRoomClockCost (env : CycleEnv) : Nat :=
  match env.roomsResp with
  | Except.error _ => 1
  | Except.ok _ => 2

/-- The `current` value the loop proceeds with: on a `getCurrentRoom`
error the variable holds the zero value `currentRoom{}` (both slices
empty), so the cycle iterates over nothing. -/
def resolvedRoom (env : CycleEnv) : currentRoom :=
  match getCurrentRoomM env with
  | Except.error _ => ⟨[], []⟩
  | Except.ok c => c

/-- Log events of the resolution step: `chat.Logger.Warn(err)` exactly when
`getCurrentRoom` failed. -/
def resolveLogs (env : CycleEnv) : List LogEvent :=
  match getCurrentRoomM env with
  | Except.error e => [LogEvent.warn e]
  | Except.ok _ => []

/-- The inner message loop (lines 326-335 / 346-355): for each fetched
message, log it with `Debugf`, and when the author is not the configured
self user and `index(lastMessageID, msg.ID) == -1`, send it to the channel
(one clock tick), append its id, and trim the window when it exceeds
`maxSize`. -/
def processMsgs (userID : String) (maxSize : Nat) (msgs : List Message)
    (w : List String) (clock : Nat) : StepOut :=
  match msgs with
  | [] => ⟨[], [], [], w, clock⟩
  | msg :: rest =>
    if msg.u.id ≠ userID ∧ index w msg.id = -1 then
      let out := processMsgs userID maxSize rest (recordID maxSize w msg.id) (clock + 1)
      ⟨msg :: out.emits, LogEvent.debugMsg msg :: out.logs, out.calls, out.window, out.clock⟩
    else
      let out := processMsgs userID maxSize rest w clock
      ⟨out.emits, LogEvent.debugMsg msg :: out.logs, out.calls, out.window, out.clock⟩

/-- Processing of one conversation: perform the history fetch (one clock
tick); on error (`err != nil`) do nothing further — no log, no emission —
and on success run the inner message loop over `resp.Messages`. -/
def processRoom (userID : String) (maxSize : Nat) (kind : RoomKind)
    (fetch : String → Nat → Except String ChannelsHistoryResponse)
    (oldest : Nat) (room : String) (w : List String) (clock : Nat) : StepOut :=
  match fetch room oldest with
  | Except.error _ => ⟨[], [], [⟨kind, room, "", oldest, true⟩], w, clock + 1⟩
  | Except.ok resp =>
    let out := processMsgs userID maxSize resp.messages w (clock + 1)
    ⟨out.emits, out.logs, ⟨kind, room, "", oldest, true⟩ :: out.calls, out.window, out.clock⟩

/-- Sequential processing of a list of conversations in order, threading
the dedup window and the clock. -/
def processRooms (userID : String) (maxSize : Nat) (kind : RoomKind)
    (fetch : String → Nat → Except String ChannelsHistoryResponse)
    (oldest : Nat) (rooms : List String) (w : List String) (clock : Nat) : StepOut :=
  match rooms with
  | [] => ⟨[], [], [], w, clock⟩
  | r :: rest =>
    let o1 := processRoom userID maxSize kind fetch oldest r w clock
    let o2 := processRooms userID maxSize kind fetch oldest rest o1.window o1.clock
    ⟨o1.emits ++ o2.emits, o1.logs ++ o2.logs, o1.calls ++ o2.calls, o2.window, o2.clock⟩

/-- Configuration of the loop: the authenticated user id (`chat.UserID`)
and the `sleepTime` argument of `GetIncomingMessage`. -/
structure Config where
  userID : String
  sleepTime : Nat
deriving DecidableEq

/-- Output of the IM-conversation loop of one cycle (lines 318-337),
started after the directory resolution (which cost one or two HTTP calls)
with the dedup window carried over from the previous cycle and
`oldest = now`. -/
def cycleIMOut (cfg : Config) (env : CycleEnv) (st : LoopState) (clock : Nat) : StepOut :=
  processRooms cfg.userID 50 RoomKind.im env.imFetch st.now (resolvedRoom env).ims
    st.lastMessageID (clock + getCurrentRoomClockCost env)

/-- Output of the channel-conversation loop of one cycle (lines 338-357),
continuing from the window and clock left by the IM loop. -/
def cycleChOut (cfg : Config) (env : CycleEnv) (st : LoopState) (clock : Nat) : StepOut :=
  processRooms cfg.userID 50 RoomKind.channel env.chFetch st.now
    (resolvedRoom env).channels (cycleIMOut cfg env st clock).window
    (cycleIMOut cfg env st clock).clock

/-- One full cycle of the loop body in `GetIncomingMessage` (lines
312-359): resolve the rooms (warn on failure, proceed with the zero
value), log the current rooms, process all IM conversations with
`oldest = now`, then all channel conversations, then capture
`now = time.Now()` (the clock after the last fetch/emission) and sleep.
The dedup bound is the local `maxSize := 50`. -/
def runCycle (cfg : Config) (env : CycleEnv) (st : LoopState) (clock : Nat) : CycleOut :=
  { emits := (cycleIMOut cfg env st clock).emits ++ (cycleChOut cfg env st clock).emits
    logs := resolveLogs env ++ [LogEvent.debugCurrentRoom (resolvedRoom env)]
      ++ (cycleIMOut cfg env st clock).logs ++ (cycleChOut cfg env st clock).logs
    calls := (cycleIMOut cfg env st clock).calls ++ (cycleChOut cfg env st clock).calls
    state := ⟨(cycleChOut cfg env st clock).clock, (cycleChOut cfg env st clock).window⟩
    clock := (cycleChOut cfg env st clock).clock + cfg.sleepTime }

/-- Finitely many iterations of the infinite `for` loop, one environment
per cycle, threading state and clock. -/
def runCycles (cfg : Config) (envs : List CycleEnv) (st : LoopState)
    (clock : Nat) : List CycleOut :=
  match envs with
  | [] => []
  | e :: rest =>
    let out := runCycle cfg e st clock
    out :: runCycles cfg rest out.state out.clock

/-- The observable behaviour of `GetIncomingMessage` over finitely many
cycles: the goroutine starts with `now := time.Now()` (the starting clock)
and an empty `lastMessageID`. -/
def getIncomingMessage (cfg : Config) (envs : List CycleEnv)
    (startClock : Nat) : List CycleOut :=
  runCycles cfg envs ⟨startClock, []⟩ startClock

/-- Scenario message `m1`: authored by user `u1`. -/
def msgM1 : Message := ⟨"m1", "hello", "t1", "t1", ⟨"u1", "alice"⟩, "r"⟩

/-- Scenario message `m2`: authored by user `u2`. -/
def msgM2 : Message := ⟨"m2", "world", "t2", "t2", ⟨"u2", "bob"⟩, "r"⟩

/-- Scenario message `m3`: authored by user `u2`. -/
def msgM3 : Message := ⟨"m3", "hi", "t3", "t3", ⟨"u2", "bob"⟩, "r"⟩

/-- Cycle environment with a single IM conversation `r` whose fetch
succeeds with no messages; used to exhibit the clock drift of the cursor. -/
def envC2 : CycleEnv where
  roomsResp := Except.ok ⟨[], "ok"⟩
  imListResp := Except.ok ⟨[⟨"r", 0⟩], true⟩
  imFetch := fun _ _ => Except.ok ⟨[], true⟩
  chFetch := fun _ _ => Except.error "unused"

/-- Cycle environment with a single IM conversation `r` returning the two
messages of the self-filter scenario. -/
def envC3 : CycleEnv where
  roomsResp := Except.ok ⟨[], "ok"⟩
  imListResp := Except.ok ⟨[⟨"r", 2⟩], true⟩
  imFetch := fun _ _ => Except.ok ⟨[msgM1, msgM2], true⟩
  chFetch := fun _ _ => Except.error "unused"

/-- Cycle environment with a single IM conversation `r` returning message
`m3`; used twice in a row for the dedup scenario. -/
def envC4 : CycleEnv where
  roomsResp := Except.ok ⟨[], "ok"⟩
  imListResp := Except.ok ⟨[⟨"r", 1⟩], true⟩
  imFetch := fun _ _ => Except.ok ⟨[msgM3], true⟩
  chFetch := fun _ _ => Except.error "unused"

/-- Cycle environment with two IM conversations where the fetch for `bad`
fails and the fetch for `good` succeeds with one message. -/
def envC6 : CycleEnv where
  roomsResp := Except.ok ⟨[], "ok"⟩
  imListResp := Except.ok ⟨[⟨"bad", 0⟩, ⟨"good", 1⟩], true⟩
  imFetch := fun room _ =>
    if room = "bad" then Except.error "boom" else Except.ok ⟨[msgM2], true⟩
  chFetch := fun _ _ => Except.error "unused"

/-- Cycle environment whose room listing fails, so the whole directory
resolution fails. -/
def envC7 : CycleEnv where
  roomsResp := Except.error "down"
  imListResp := Except.ok ⟨[], true⟩
  imFetch := fun _ _ => Except.ok ⟨[msgM2], true⟩
  chFetch := fun _ _ => Except.ok ⟨[msgM2], true⟩

/-- The `Chat` struct of rocketchat.go.  The `*http.Client` pointer and the
`Logger` interface value are abstracted as opaque handles (`Nat`): only
their identity matters for the properties proved here. -/
structure GoChat where
  client : Nat
  baseURL : String
  logger : Nat
  token : String
  userID : String
deriving DecidableEq

/-- Body of `func (chat Chat) SetLogger(logger Logger)`: the assignment
`chat.Logger = logger` performed on the receiver.  The returned value is
the final state of the (local copy of the) receiver. -/
def setLoggerBody (chat : GoChat) (logger : Nat) : GoChat :=
  { chat with logger := logger }

/-- Call semantics of `c.SetLogger(l)`: the receiver is declared by value,
so the method body runs on a copy of `c`; the copy's final state is
discarded when the method returns, and the caller's value is unchanged. -/
def setLoggerCall (c : GoChat) (l : Nat) : GoChat :=
  let receiver := c
  let _ := setLoggerBody receiver l
  c

/-- The `errorResponse` struct used to decode 4xx bodies. -/
structure ErrorResponse where
  success : Bool
  error : String
  errorType : String
deriving DecidableEq

/-- An HTTP request as assembled by the history fetchers: method, URL,
query parameters in the order they are added (the final `Encode()`
serialisation is abstracted), and headers in the order they are added. -/
structure HTTPRequest where
  method : String
  url : String
  query : List (String × String)
  headers : List (String × String)
deriving DecidableEq

/-- The parts of an HTTP response the history fetchers inspect: the status
code, the result of decoding the body as an `errorResponse`, and the
result of decoding the body as a `ChannelsHistoryResponse` (each decode
may itself fail). -/
structure HistResponse where
  statusCode : Nat
  errorDecode : Except String ErrorResponse
  historyDecode : Except String ChannelsHistoryResponse

/-- Request assembled by `getChannelsHistory` (lines 366-396): GET on
`/api/v1/channels.history`, query `roomId`, then `latest` and `oldest`
only when non-empty, then `unreads`; headers `Content-Type`,
`X-Auth-Token`, `X-User-id`. -/
def getChannelsHistoryRequest (chat : GoChat) (roomID latest oldest : String)
    (unreads : Bool) : HTTPRequest where
  method := "GET"
  url := chat.baseURL ++ "/api/v1/channels.history"
  query :=
    [("roomId", roomID)]
      ++ (if latest ≠ "" then [("latest", latest)] else [])
      ++ (if oldest ≠ "" then [("oldest", oldest)] else [])
      ++ [("unreads", if unreads then "true" else "false")]
  headers :=
    [("Content-Type", "application/json"),
     ("X-Auth-Token", chat.token),
     ("X-User-id", chat.userID)]

/-- Request assembled by `getIMHistory` (lines 430-460): GET on
`/api/v1/im.history`, with the query and headers built the same way as
`getChannelsHistory`. -/
def getIMHistoryRequest (chat : GoChat) (roomID latest oldest : String)
    (unreads : Bool) : HTTPRequest where
  method := "GET"
  url := chat.baseURL ++ "/api/v1/im.history"
  query :=
    [("roomId", roomID)]
      ++ (if latest ≠ "" then [("latest", latest)] else [])
      ++ (if oldest ≠ "" then [("oldest", oldest)] else [])
      ++ [("unreads", if unreads then "true" else "false")]
  headers :=
    [("Content-Type", "application/json"),
     ("X-Auth-Token", chat.token),
     ("X-User-id", chat.userID)]

/-- Response handling of `getChannelsHistory` (lines 397-427): propagate a
transport error; on a 4xx status decode the `errorResponse` and fail with
the formatted status/type/message; otherwise decode the history response
and reject it when `Success` is false. -/
def getChannelsHistoryHandle (res : Except String HistResponse) :
    Except String ChannelsHistoryResponse :=
  match res with
  | Except.error e => Except.error e
  | Except.ok r =>
    if 400 ≤ r.statusCode ∧ r.statusCode < 500 then
      match r.errorDecode with
      | Except.error e => Except.error e
      | Except.ok er =>
        Except.error ("status code: " ++ toString r.statusCode ++ " "
          ++ er.errorType ++ ": " ++ er.error)
    else
      match r.historyDecode with
      | Except.error e => Except.error e
      | Except.ok h =>
        if !h.success then Except.error "fail to getChannelsHistory"
        else Except.ok h

/-- Response handling of `getIMHistory` (lines 461-491): the same steps,
including the (copy-pasted) `"fail to getChannelsHistory"` error text. -/
def getIMHistoryHandle (res : Except String HistResponse) :
    Except String ChannelsHistoryResponse :=
  match res with
  | Except.error e => Except.error e
  | Except.ok r =>
    if 400 ≤ r.statusCode ∧ r.statusCode < 500 then
      match r.errorDecode with
      | Except.error e => Except.error e
      | Except.ok er =>
        Except.error ("status code: " ++ toString r.statusCode ++ " "
          ++ er.errorType ++ ": " ++ er.error)
    else
      match r.historyDecode with
      | Except.error e => Except.error e
      | Except.ok h =>
        if !h.success then Except.error "fail to getChannelsHistory"
        else Except.ok h

theorem processMsgs_calls (u : String) (B : Nat) (msgs : List Message)
    (w : List String) (c : Nat) : (processMsgs u B msgs w c).calls = [] := by
  induction msgs generalizing w c with
  | nil => rfl
  | cons m rest ih =>
    rw [processMsgs]
    split
    · exact ih _ _
    · exact ih _ _

theorem processMsgs_append (u : String) (B : Nat) (xs ys : List Message)
    (w : List String) (c : Nat) :
    processMsgs u B (xs ++ ys) w c =
      ⟨(processMsgs u B xs w c).emits
          ++ (processMsgs u B ys (processMsgs u B xs w c).window
              (processMsgs u B xs w c).clock).emits,
        (processMsgs u B xs w c).logs
          ++ (processMsgs u B ys (processMsgs u B xs w c).window
              (processMsgs u B xs w c).clock).logs,
        (processMsgs u B ys (processMsgs u B xs w c).window
          (processMsgs u B xs w c).clock).calls,
        (processMsgs u B ys (processMsgs u B xs w c).window
          (processMsgs u B xs w c).clock).window,
        (processMsgs u B ys (processMsgs u B xs w c).window
          (processMsgs u B xs w c).clock).clock⟩ := by
  induction xs generalizing w c with
  | nil => simp [processMsgs]
  | cons m rest ih =>
    rw [List.cons_append, processMsgs, processMsgs]
    split
    · simp [ih]
    · simp [ih]

theorem processMsgs_emits_sublist (u : String) (B : Nat) (msgs : List Message)
    (w : List String) (c : Nat) :
    (processMsgs u B msgs w c).emits.Sublist msgs := by
  induction msgs generalizing w c with
  | nil => simp [processMsgs]
  | cons m rest ih =>
    rw [processMsgs]
    split
    · exact List.Sublist.cons₂ m (ih _ _)
    · exact List.Sublist.cons m (ih _ _)

theorem processMsgs_emits_not_self (u : String) (B : Nat) (msgs : List Message)
    (w : List String) (c : Nat) :
    ∀ m ∈ (processMsgs u B msgs w c).emits, m.u.id ≠ u := by
  induction msgs generalizing w c with
  | nil => simp [processMsgs]
  | cons m rest ih =>
    rw [processMsgs]
    split
    · next h =>
      intro x hx
      rcases List.mem_cons.mp hx with hx | hx
      · exact hx ▸ h.1
      · exact ih _ _ x hx
    · exact fun x hx => ih _ _ x hx

theorem recordID_length_le (w : List String) (id : String) (h : w.length ≤ 50) :
    (recordID 50 w id).length ≤ 50 := by
  unfold recordID
  dsimp only
  split
  · next hgt =>
    simp only [List.length_drop, List.length_append, List.length_cons,
      List.length_nil] at hgt ⊢
    omega
  · next hle =>
    simp only [List.length_append, List.length_cons, List.length_nil] at hle ⊢
    omega

theorem processMsgs_window_le (u : String) (msgs : List Message)
    (w : List String) (c : Nat) (h : w.length ≤ 50) :
    (processMsgs u 50 msgs w c).window.length ≤ 50 := by
  induction msgs generalizing w c with
  | nil => exact h
  | cons m rest ih =>
    rw [processMsgs]
    split
    · exact ih _ _ (recordID_length_le _ _ h)
    · exact ih _ _ h

theorem processMsgs_clock_le (u : String) (B : Nat) (msgs : List Message)
    (w : List String) (c : Nat) : c ≤ (processMsgs u B msgs w c).clock := by
  induction msgs generalizing w c with
  | nil => exact Nat.le_refl c
  | cons m rest ih =>
    rw [processMsgs]
    split
    · exact Nat.le_trans (Nat.le_succ c) (ih _ _)
    · exact ih _ _

theorem processRoom_emits_not_self (u : String) (B : Nat) (k : RoomKind)
    (f : String → Nat → Except String ChannelsHistoryResponse)
    (o : Nat) (r : String) (w : List String) (c : Nat) :
    ∀ m ∈ (processRoom u B k f o r w c).emits, m.u.id ≠ u := by
  unfold processRoom
  split
  · simp
  · exact fun m hm => processMsgs_emits_not_self u B _ w (c + 1) m hm

theorem processRoom_window_le (u : String) (k : RoomKind)
    (f : String → Nat → Except String ChannelsHistoryResponse)
    (o : Nat) (r : String) (w : List String) (c : Nat) (h : w.length ≤ 50) :
    (processRoom u 50 k f o r w c).window.length ≤ 50 := by
  unfold processRoom
  split
  · exact h
  · exact processMsgs_window_le u _ w (c + 1) h

theorem processRoom_clock_le (u : String) (B : Nat) (k : RoomKind)
    (f : String → Nat → Except String ChannelsHistoryResponse)
    (o : Nat) (r : String) (w : List String) (c : Nat) :
    c ≤ (processRoom u B k f o r w c).clock := by
  unfold processRoom
  split
  · exact Nat.le_succ c
  · exact Nat.le_trans (Nat.le_succ c) (processMsgs_clock_le u B _ w (c + 1))

theorem processRoom_calls_oldest (u : String) (B : Nat) (k : RoomKind)
    (f : String → Nat → Except String ChannelsHistoryResponse)
    (o : Nat) (r : String) (w : List String) (c : Nat) :
    ∀ call ∈ (processRoom u B k f o r w c).calls, call.oldest = o := by
  unfold processRoom
  split
  · intro call hc
    rcases List.mem_singleton.mp hc with rfl
    rfl
  · intro call hc
    rw [show (⟨(processMsgs u B _ w (c + 1)).emits, (processMsgs u B _ w (c + 1)).logs,
        ⟨k, r, "", o, true⟩ :: (processMsgs u B _ w (c + 1)).calls,
        (processMsgs u B _ w (c + 1)).window,
        (processMsgs u B _ w (c + 1)).clock⟩ : StepOut).calls
        = ⟨k, r, "", o, true⟩ :: (processMsgs u B _ w (c + 1)).calls from rfl] at hc
    rw [processMsgs_calls] at hc
    rcases List.mem_singleton.mp hc with rfl
    rfl

theorem processRooms_emits_not_self (u : String) (B : Nat) (k : RoomKind)
    (f : String → Nat → Except String ChannelsHistoryResponse)
    (o : Nat) (rooms : List String) (w : List String) (c : Nat) :
    ∀ m ∈ (processRooms u B k f o rooms w c).emits, m.u.id ≠ u := by
  induction rooms generalizing w c with
  | nil => simp [processRooms]
  | cons r rest ih =>
    rw [processRooms]
    intro m hm
    rcases List.mem_append.mp hm with hm | hm
    · exact processRoom_emits_not_self u B k f o r w c m hm
    · exact ih _ _ m hm

theorem processRooms_window_le (u : String) (k : RoomKind)
    (f : String → Nat → Except String ChannelsHistoryResponse)
    (o : Nat) (rooms : List String) (w : List String) (c : Nat)
    (h : w.length ≤ 50) :
    (processRooms u 50 k f o rooms w c).window.length ≤ 50 := by
  induction rooms generalizing w c with
  | nil => exact h
  | cons r rest ih =>
    rw [processRooms]
    exact ih _ _ (processRoom_window_le u k f o r w c h)

theorem processRooms_clock_le (u : String) (B : Nat) (k : RoomKind)
    (f : String → Nat → Except String ChannelsHistoryResponse)
    (o : Nat) (rooms : List String) (w : List String) (c : Nat) :
    c ≤ (processRooms u B k f o rooms w c).clock := by
  induction rooms generalizing w c with
  | nil => exact Nat.le_refl c
  | cons r rest ih =>
    rw [processRooms]
    exact Nat.le_trans (processRoom_clock_le u B k f o r w c) (ih _ _)

theorem processRooms_calls_oldest (u : String) (B : Nat) (k : RoomKind)
    (f : String → Nat → Except String ChannelsHistoryResponse)
    (o : Nat) (rooms : List String) (w : List String) (c : Nat) :
    ∀ call ∈ (processRooms u B k f o rooms w c).calls, call.oldest = o := by
  induction rooms generalizing w c with
  | nil => simp [processRooms]
  | cons r rest ih =>
    rw [processRooms]
    intro call hc
    rcases List.mem_append.mp hc with hc | hc
    · exact processRoom_calls_oldest u B k f o r w c call hc
    · exact ih _ _ call hc

theorem processRooms_append (u : String) (B : Nat) (k : RoomKind)
    (f : String → Nat → Except String ChannelsHistoryResponse)
    (o : Nat) (rooms₁ rooms₂ : List String) (w : List String) (c : Nat) :
    processRooms u B k f o (rooms₁ ++ rooms₂) w c =
      ⟨(processRooms u B k f o rooms₁ w c).emits
          ++ (processRooms u B k f o rooms₂ (processRooms u B k f o rooms₁ w c).window
              (processRooms u B k f o rooms₁ w c).clock).emits,
        (processRooms u B k f o rooms₁ w c).logs
          ++ (processRooms u B k f o rooms₂ (processRooms u B k f o rooms₁ w c).window
              (processRooms u B k f o rooms₁ w c).clock).logs,
        (processRooms u B k f o rooms₁ w c).calls
          ++ (processRooms u B k f o rooms₂ (processRooms u B k f o rooms₁ w c).window
              (processRooms u B k f o rooms₁ w c).clock).calls,
        (processRooms u B k f o rooms₂ (processRooms u B k f o rooms₁ w c).window
          (processRooms u B k f o rooms₁ w c).clock).window,
        (processRooms u B k f o rooms₂ (processRooms u B k f o rooms₁ w c).window
          (processRooms u B k f o rooms₁ w c).clock).clock⟩ := by
  induction rooms₁ generalizing w c with
  | nil => simp [processRooms]
  | cons r rest ih =>
    rw [List.cons_append, processRooms, processRooms]
    simp [ih]

theorem getCurrentRoomClockCost_pos (env : CycleEnv) :
    1 ≤ getCurrentRoomClockCost env := by
  unfold getCurrentRoomClockCost
  split
  · exact Nat.le_refl 1
  · omega

theorem runCycle_emits_not_self (cfg : Config) (env : CycleEnv)
    (st : LoopState) (clock : Nat) :
    ∀ m ∈ (runCycle cfg env st clock).emits, m.u.id ≠ cfg.userID := by
  intro m hm
  rcases List.mem_append.mp hm with hm | hm
  · exact processRooms_emits_not_self _ _ _ _ _ _ _ _ m hm
  · exact processRooms_emits_not_self _ _ _ _ _ _ _ _ m hm

theorem runCycle_window_le (cfg : Config) (env : CycleEnv)
    (st : LoopState) (clock : Nat) (h : st.lastMessageID.length ≤ 50) :
    (runCycle cfg env st clock).state.lastMessageID.length ≤ 50 :=
  processRooms_window_le _ _ _ _ _ _ _
    (processRooms_window_le _ _ _ _ _ _ _ h)

theorem runCycle_now_plus_sleep (cfg : Config) (env : CycleEnv)
    (st : LoopState) (clock : Nat) :
    (runCycle cfg env st clock).state.now + cfg.sleepTime
      = (runCycle cfg env st clock).clock := rfl

theorem runCycle_start_lt_now (cfg : Config) (env : CycleEnv)
    (st : LoopState) (clock : Nat) :
    clock < (runCycle cfg env st clock).state.now := by
  have h1 := getCurrentRoomClockCost_pos env
  have h2 := processRooms_clock_le cfg.userID 50 RoomKind.im env.imFetch st.now
    (resolvedRoom env).ims st.lastMessageID (clock + getCurrentRoomClockCost env)
  have h3 := processRooms_clock_le cfg.userID 50 RoomKind.channel env.chFetch st.now
    (resolvedRoom env).channels (cycleIMOut cfg env st clock).window
    (cycleIMOut cfg env st clock).clock
  have hIM : (cycleIMOut cfg env st clock).clock
      = (processRooms cfg.userID 50 RoomKind.im env.imFetch st.now
        (resolvedRoom env).ims st.lastMessageID
        (clock + getCurrentRoomClockCost env)).clock := rfl
  have hnow : (runCycle cfg env st clock).state.now
      = (processRooms cfg.userID 50 RoomKind.channel env.chFetch st.now
        (resolvedRoom env).channels (cycleIMOut cfg env st clock).window
        (cycleIMOut cfg env st clock).clock).clock := rfl
  omega

theorem runCycle_calls_oldest (cfg : Config) (env : CycleEnv)
    (st : LoopState) (clock : Nat) :
    ∀ call ∈ (runCycle cfg env st clock).calls, call.oldest = st.now := by
  intro call hc
  rcases List.mem_append.mp hc with hc | hc
  · exact processRooms_calls_oldest _ _ _ _ _ _ _ _ call hc
  · exact processRooms_calls_oldest _ _ _ _ _ _ _ _ call hc

theorem runCycles_length (cfg : Config) (envs : List CycleEnv)
    (st : LoopState) (clock : Nat) :
    (runCycles cfg envs st clock).length = envs.length := by
  induction envs generalizing st clock with
  | nil => rfl
  | cons e rest ih =>
    rw [runCycles]
    simp [ih]

theorem runCycles_emits_not_self (cfg : Config) (envs : List CycleEnv)
    (st : LoopState) (clock : Nat) :
    ∀ out ∈ runCycles cfg envs st clock, ∀ m ∈ out.emits, m.u.id ≠ cfg.userID := by
  induction envs generalizing st clock with
  | nil => simp [runCycles]
  | cons e rest ih =>
    intro out hout
    rw [runCycles] at hout
    rcases List.mem_cons.mp hout with hout | hout
    · exact hout ▸ runCycle_emits_not_self cfg e st clock
    · exact ih _ _ out hout

theorem runCycles_window_le (cfg : Config) (envs : List CycleEnv)
    (st : LoopState) (clock : Nat) (h : st.lastMessageID.length ≤ 50) :
    ∀ out ∈ runCycles cfg envs st clock, out.state.lastMessageID.length ≤ 50 := by
  induction envs generalizing st clock with
  | nil => simp [runCycles]
  | cons e rest ih =>
    intro out hout
    rw [runCycles] at hout
    rcases List.mem_cons.mp hout with hout | hout
    · exact hout ▸ runCycle_window_le cfg e st clock h
    · exact ih _ _ (runCycle_window_le cfg e st clock h) out hout

/-- C1 (counterexample): with bound 4, recording A,B,C,D,E leaves the
window `["C","D","E"]`, so `contains(C)` is true and C differs from both D
and E — refuting "no identifier other than D and E is in the window".  The
eviction drops the first `4/2 = 2` elements of the 5-element list, keeping
three, not two. -/
theorem c1_counterexample :
    recordSeq 4 ["A", "B", "C", "D", "E"] = ["C", "D", "E"]
    ∧ index (recordSeq 4 ["A", "B", "C", "D", "E"]) "C" ≠ -1
    ∧ ("C" : String) ≠ "D" ∧ ("C" : String) ≠ "E" := by decide

/-- C1 (amended): with bound 4, recording A,B,C,D,E leaves the window
containing exactly C, D and E: `contains(A)` and `contains(B)` are false,
`contains(C)`, `contains(D)` and `contains(E)` are true, and the window is
precisely the list `["C","D","E"]`. -/
theorem c1_window_after_five_records :
    recordSeq 4 ["A", "B", "C", "D", "E"] = ["C", "D", "E"]
    ∧ index (recordSeq 4 ["A", "B", "C", "D", "E"]) "A" = -1
    ∧ index (recordSeq 4 ["A", "B", "C", "D", "E"]) "B" = -1
    ∧ index (recordSeq 4 ["A", "B", "C", "D", "E"]) "C" ≠ -1
    ∧ index (recordSeq 4 ["A", "B", "C", "D", "E"]) "D" ≠ -1
    ∧ index (recordSeq 4 ["A", "B", "C", "D", "E"]) "E" ≠ -1 := by decide

/-- C2 (counterexample): a two-cycle run started at clock 0 with one IM
conversation per cycle.  Cycle 0 starts at clock 0, but the fetch of cycle
1 passes `oldest = 3` — the clock reached after cycle 0's fetch completed
(directory resolution cost 2 ticks, the fetch 1 tick) — which is neither
the start of cycle 0 (clock 0) nor the start of cycle 1 (clock 8, after
the 5-tick sleep). -/
theorem c2_counterexample :
    (getIncomingMessage ⟨"u1", 5⟩ [envC2, envC2] 0).map CycleOut.calls =
      [[⟨RoomKind.im, "r", "", 0, true⟩], [⟨RoomKind.im, "r", "", 3, true⟩]]
    ∧ (getIncomingMessage ⟨"u1", 5⟩ [envC2, envC2] 0).map CycleOut.clock = [8, 16]
    ∧ (3 : Nat) ≠ 0 ∧ (3 : Nat) ≠ 8 := by decide

/-- C2 (amended): every history fetch of a cycle passes `oldest = now`,
the cursor stored in the loop state; and after any cycle the new cursor is
the timestamp captured at the end of that cycle's fetch phase — the cycle's
final clock minus the sleep — which is strictly later than the clock at
which the cycle started.  So the cursor for cycle N+1 is the time cycle N's
fetching ended, not the time cycle N began. -/
theorem c2_cursor_end_of_cycle :
    (∀ cfg env st clock, ∀ call ∈ (runCycle cfg env st clock).calls,
      call.oldest = st.now)
    ∧ (∀ cfg env st clock,
        (runCycle cfg env st clock).state.now + cfg.sleepTime
          = (runCycle cfg env st clock).clock
        ∧ clock < (runCycle cfg env st clock).state.now) :=
  ⟨fun cfg env st clock => runCycle_calls_oldest cfg env st clock,
   fun cfg env st clock =>
    ⟨runCycle_now_plus_sleep cfg env st clock,
     runCycle_start_lt_now cfg env st clock⟩⟩

/-- Witness for C2 (amended) at a concrete input: the single call of the
first cycle of the `envC2` run uses `oldest = 0`, the initial cursor. -/
theorem c2_witness :
    (⟨RoomKind.im, "r", "", 0, true⟩ : FetchCall).oldest = 0
    ∧ (runCycle ⟨"u1", 5⟩ envC2 ⟨0, []⟩ 0).state.now + 5
      = (runCycle ⟨"u1", 5⟩ envC2 ⟨0, []⟩ 0).clock
    ∧ 0 < (runCycle ⟨"u1", 5⟩ envC2 ⟨0, []⟩ 0).state.now :=
  ⟨c2_cursor_end_of_cycle.1 ⟨"u1", 5⟩ envC2 ⟨0, []⟩ 0
      ⟨RoomKind.im, "r", "", 0, true⟩ (by decide),
   (c2_cursor_end_of_cycle.2 ⟨"u1", 5⟩ envC2 ⟨0, []⟩ 0).1,
   (c2_cursor_end_of_cycle.2 ⟨"u1", 5⟩ envC2 ⟨0, []⟩ 0).2⟩

/-- C3: no cycle of the loop ever emits a message whose author id equals
the configured self user id, whatever the dedup window holds; and in the
concrete scenario (self id `u1`, one fetch returning `m1` by `u1` and `m2`
by `u2`) only `m2` is emitted. -/
theorem c3_self_never_emitted :
    (∀ cfg envs st clock, ∀ out ∈ runCycles cfg envs st clock,
      ∀ m ∈ out.emits, m.u.id ≠ cfg.userID)
    ∧ (getIncomingMessage ⟨"u1", 5⟩ [envC3] 0).map CycleOut.emits = [[msgM2]]
    ∧ msgM1.u.id = "u1" ∧ msgM2.u.id = "u2" :=
  ⟨fun cfg envs st clock => runCycles_emits_not_self cfg envs st clock,
   by decide, rfl, rfl⟩

/-- Witness for C3 at a concrete input: the message `m2` emitted by the
scenario run indeed has an author other than `u1`. -/
theorem c3_witness : msgM2.u.id ≠ "u1" :=
  c3_self_never_emitted.1 ⟨"u1", 5⟩ [envC3] ⟨0, []⟩ 0
    (runCycle ⟨"u1", 5⟩ envC3 ⟨0, []⟩ 0) (by decide) msgM2 (by decide)

/-- C4: in the two-cycle scenario where the same conversation returns the
same message `m3` both times, `m3` is emitted in the first cycle only; and
in general, whenever a message's id is still in the dedup window at the
point it is considered, the message is skipped: processing
`ms₁ ++ m :: ms₂` emits exactly what processing `ms₁` and then `ms₂`
(from the unchanged window and clock) emits. -/
theorem c4_no_reemission_in_window :
    ((getIncomingMessage ⟨"u1", 5⟩ [envC4, envC4] 0).map CycleOut.emits
      = [[msgM3], []])
    ∧ (∀ (u : String) (B : Nat) (w : List String) (c : Nat)
        (ms₁ : List Message) (m : Message) (ms₂ : List Message),
        index (processMsgs u B ms₁ w c).window m.id ≠ -1 →
        (processMsgs u B (ms₁ ++ m :: ms₂) w c).emits =
          (processMsgs u B ms₁ w c).emits
            ++ (processMsgs u B ms₂ (processMsgs u B ms₁ w c).window
                (processMsgs u B ms₁ w c).clock).emits) := by
  constructor
  · decide
  · intro u B w c ms₁ m ms₂ h
    have happ := congrArg StepOut.emits (processMsgs_append u B ms₁ (m :: ms₂) w c)
    rw [happ]
    rw [processMsgs]
    rw [if_neg (fun hc => h hc.2)]

/-- Witness for C4 at a concrete input: having just emitted and recorded
`m3`, a second occurrence of `m3` in the same fetch result is skipped. -/
theorem c4_witness :
    (processMsgs "u1" 50 ([msgM3] ++ msgM3 :: []) [] 0).emits =
      (processMsgs "u1" 50 [msgM3] [] 0).emits
        ++ (processMsgs "u1" 50 [] (processMsgs "u1" 50 [msgM3] [] 0).window
            (processMsgs "u1" 50 [msgM3] [] 0).clock).emits :=
  c4_no_reemission_in_window.2 "u1" 50 [] 0 [msgM3] msgM3 [] (by decide)

/-- C5: the dedup record step at the source's bound 50 never grows the
window past 50 (append to at most 51, then drop the first 25), and the
invariant is preserved across entire cycles: starting any run with a
window of length at most 50, every cycle ends with a window of length at
most 50. -/
theorem c5_window_bounded :
    (∀ w id, w.length ≤ 50 → (recordID 50 w id).length ≤ 50)
    ∧ (∀ cfg envs st clock, st.lastMessageID.length ≤ 50 →
        ∀ out ∈ runCycles cfg envs st clock,
          out.state.lastMessageID.length ≤ 50) :=
  ⟨fun w id h => recordID_length_le w id h,
   fun cfg envs st clock h => runCycles_window_le cfg envs st clock h⟩

/-- Witness for C5 at concrete inputs: recording into a full 50-element
window stays within the bound, and the scenario cycle leaves a bounded
window. -/
theorem c5_witness :
    (recordID 50 (List.replicate 50 "x") "y").length ≤ 50
    ∧ (runCycle ⟨"u1", 5⟩ envC4 ⟨0, []⟩ 0).state.lastMessageID.length ≤ 50 :=
  ⟨c5_window_bounded.1 (List.replicate 50 "x") "y" (by decide),
   c5_window_bounded.2 ⟨"u1", 5⟩ [envC4] ⟨0, []⟩ 0 (by decide)
     (runCycle ⟨"u1", 5⟩ envC4 ⟨0, []⟩ 0) (by decide)⟩

/-- C6 (counterexample): in a cycle where the fetch for room `bad` fails
while the fetch for `good` succeeds, the failure is NOT logged: the
cycle's log contains only the unconditional current-room debug line and
the debug line for the successfully fetched message — no `Warn` (or any
other) entry records the failure.  The rest of the claim holds: nothing is
emitted for `bad` and `good` is still processed. -/
theorem c6_counterexample :
    envC6.imFetch "bad" 0 = Except.error "boom"
    ∧ (runCycle ⟨"u1", 5⟩ envC6 ⟨0, []⟩ 0).logs =
        [LogEvent.debugCurrentRoom ⟨[], ["bad", "good"]⟩, LogEvent.debugMsg msgM2]
    ∧ (runCycle ⟨"u1", 5⟩ envC6 ⟨0, []⟩ 0).logs.filter isWarn = []
    ∧ (runCycle ⟨"u1", 5⟩ envC6 ⟨0, []⟩ 0).emits = [msgM2] := by decide

/-- C6 (amended): a failed history fetch for one conversation is skipped
silently — no emission, no log entry, window unchanged (the HTTP call
itself is still recorded); the remaining conversations of the cycle are
processed as if the failed one were absent; and a failure never shortens
the run: every scheduled cycle still executes. -/
theorem c6_fetch_failure_skipped :
    (∀ (u : String) (B : Nat) (k : RoomKind)
        (f : String → Nat → Except String ChannelsHistoryResponse)
        (o : Nat) (r : String) (w : List String) (c : Nat) (e : String),
        f r o = Except.error e →
        processRoom u B k f o r w c = ⟨[], [], [⟨k, r, "", o, true⟩], w, c + 1⟩)
    ∧ (∀ (u : String) (B : Nat) (k : RoomKind)
        (f : String → Nat → Except String ChannelsHistoryResponse)
        (o : Nat) (r : String) (rest : List String) (w : List String)
        (c : Nat) (e : String),
        f r o = Except.error e →
        (processRooms u B k f o (r :: rest) w c).emits
            = (processRooms u B k f o rest w (c + 1)).emits
        ∧ (processRooms u B k f o (r :: rest) w c).logs
            = (processRooms u B k f o rest w (c + 1)).logs)
    ∧ (∀ cfg envs st clock, (runCycles cfg envs st clock).length = envs.length) := by
  refine ⟨?_, ?_, fun cfg envs st clock => runCycles_length cfg envs st clock⟩
  · intro u B k f o r w c e h
    unfold processRoom
    rw [h]
  · intro u B k f o r rest w c e h
    rw [processRooms]
    unfold processRoom
    rw [h]
    exact ⟨rfl, rfl⟩

/-- Witness for C6 (amended) at the concrete failing input: room `bad` of
`envC6`. -/
theorem c6_witness :
    processRoom "u1" 50 RoomKind.im envC6.imFetch 0 "bad" [] 0
      = ⟨[], [], [⟨RoomKind.im, "bad", "", 0, true⟩], [], 1⟩
    ∧ (processRooms "u1" 50 RoomKind.im envC6.imFetch 0 ["bad", "good"] [] 0).emits
      = (processRooms "u1" 50 RoomKind.im envC6.imFetch 0 ["good"] [] 1).emits :=
  ⟨c6_fetch_failure_skipped.1 "u1" 50 RoomKind.im envC6.imFetch 0 "bad" [] 0
      "boom" (by decide),
   (c6_fetch_failure_skipped.2.1 "u1" 50 RoomKind.im envC6.imFetch 0 "bad"
      ["good"] [] 0 "boom" (by decide)).1⟩

/-- C7: when the directory resolution fails — the room listing errors, or
it succeeds and the IM listing errors — the cycle logs a warning, makes no
history fetch, emits nothing, leaves the dedup window untouched, and the
loop still runs every subsequent cycle. -/
theorem c7_directory_failure_degrades :
    ∀ cfg env st clock e,
      (env.roomsResp = Except.error e ∨
        (∃ rr, env.roomsResp = Except.ok rr ∧ env.imListResp = Except.error e)) →
      (runCycle cfg env st clock).emits = []
      ∧ (runCycle cfg env st clock).calls = []
      ∧ (runCycle cfg env st clock).logs =
          [LogEvent.warn e, LogEvent.debugCurrentRoom ⟨[], []⟩]
      ∧ (runCycle cfg env st clock).state.lastMessageID = st.lastMessageID
      ∧ ∀ rest, (runCycles cfg (env :: rest) st clock).length = rest.length + 1 := by
  intro cfg env st clock e h
  have hres : getCurrentRoomM env = Except.error e := by
    rcases h with h | ⟨rr, h1, h2⟩
    · unfold getCurrentRoomM
      rw [h]
    · unfold getCurrentRoomM
      rw [h1, h2]
  refine ⟨?_, ?_, ?_, ?_, ?_⟩
  · simp [runCycle, cycleChOut, cycleIMOut, resolvedRoom, hres, processRooms]
  · simp [runCycle, cycleChOut, cycleIMOut, resolvedRoom, hres, processRooms]
  · simp [runCycle, cycleChOut, cycleIMOut, resolvedRoom, resolveLogs, hres,
      processRooms]
  · simp [runCycle, cycleChOut, cycleIMOut, resolvedRoom, hres, processRooms]
  · intro rest
    rw [runCycles_length]
    rfl

/-- Witness for C7 at the concrete input `envC7`, whose room listing fails
with "down". -/
theorem c7_witness :
    (runCycle ⟨"u1", 5⟩ envC7 ⟨0, []⟩ 0).emits = []
    ∧ (runCycle ⟨"u1", 5⟩ envC7 ⟨0, []⟩ 0).logs =
        [LogEvent.warn "down", LogEvent.debugCurrentRoom ⟨[], []⟩]
    ∧ (runCycles ⟨"u1", 5⟩ [envC7, envC7] ⟨0, []⟩ 0).length = 2 :=
  ⟨(c7_directory_failure_degrades ⟨"u1", 5⟩ envC7 ⟨0, []⟩ 0 "down"
      (Or.inl (by decide))).1,
   (c7_directory_failure_degrades ⟨"u1", 5⟩ envC7 ⟨0, []⟩ 0 "down"
      (Or.inl (by decide))).2.2.1,
   (c7_directory_failure_degrades ⟨"u1", 5⟩ envC7 ⟨0, []⟩ 0 "down"
      (Or.inl (by decide))).2.2.2.2 [envC7]⟩

/-- C8: within a cycle the emitted stream is the IM-loop emissions
followed by the channel-loop emissions; processing a concatenation of
conversations emits the first block's messages before the second block's,
threading the window and clock in order; and within one conversation the
emitted messages form a sublist (an order-preserving selection) of the
messages the fetch returned. -/
theorem c8_emission_order :
    (∀ cfg env st clock, (runCycle cfg env st clock).emits =
        (cycleIMOut cfg env st clock).emits ++ (cycleChOut cfg env st clock).emits)
    ∧ (∀ (u : String) (B : Nat) (k : RoomKind)
        (f : String → Nat → Except String ChannelsHistoryResponse)
        (o : Nat) (rooms₁ rooms₂ w : List String) (c : Nat),
        (processRooms u B k f o (rooms₁ ++ rooms₂) w c).emits =
          (processRooms u B k f o rooms₁ w c).emits
            ++ (processRooms u B k f o rooms₂
                (processRooms u B k f o rooms₁ w c).window
                (processRooms u B k f o rooms₁ w c).clock).emits)
    ∧ (∀ (u : String) (B : Nat) (msgs : List Message) (w : List String) (c : Nat),
        (processMsgs u B msgs w c).emits.Sublist msgs) :=
  ⟨fun _ _ _ _ => rfl,
   fun u B k f o rooms₁ rooms₂ w c =>
    congrArg StepOut.emits (processRooms_append u B k f o rooms₁ rooms₂ w c),
   fun u B msgs w c => processMsgs_emits_sublist u B msgs w c⟩

/-- C9: `getChannelsHistory` and `getIMHistory` build identical requests
except for the endpoint path — same method, same query parameters (with
`latest` and `oldest` omitted when empty), same headers — and handle any
given response identically: same 4xx error decoding and formatting, same
`Success == false` rejection (with the same copy-pasted error text), and
equal results and errors on every input. -/
theorem c9_history_fetchers_equivalent :
    ∀ (chat : GoChat) (roomID latest oldest : String) (unreads : Bool),
      (getChannelsHistoryRequest chat roomID latest oldest unreads).method
        = (getIMHistoryRequest chat roomID latest oldest unreads).method
      ∧ (getChannelsHistoryRequest chat roomID latest oldest unreads).query
        = (getIMHistoryRequest chat roomID latest oldest unreads).query
      ∧ (getChannelsHistoryRequest chat roomID latest oldest unreads).headers
        = (getIMHistoryRequest chat roomID latest oldest unreads).headers
      ∧ (getChannelsHistoryRequest chat roomID latest oldest unreads).url
        = chat.baseURL ++ "/api/v1/channels.history"
      ∧ (getIMHistoryRequest chat roomID latest oldest unreads).url
        = chat.baseURL ++ "/api/v1/im.history"
      ∧ (getChannelsHistoryRequest chat roomID "" "" unreads).query
        = [("roomId", roomID), ("unreads", if unreads then "true" else "false")]
      ∧ ∀ res, getChannelsHistoryHandle res = getIMHistoryHandle res :=
  fun _ _ _ _ _ => ⟨rfl, rfl, rfl, rfl, rfl, rfl, fun _ => rfl⟩

/-- C10: `SetLogger` takes its receiver by value, so calling it leaves the
caller's `Chat` — every field, the `Logger` included — exactly as it was;
the assignment only lands on the discarded copy (as `setLoggerBody`
shows). -/
theorem c10_setLogger_no_effect :
    ∀ (c : GoChat) (l : Nat),
      setLoggerCall c l = c
      ∧ (setLoggerCall c l).logger = c.logger
      ∧ (setLoggerCall c l).client = c.client
      ∧ (setLoggerCall c l).baseURL = c.baseURL
      ∧ (setLoggerCall c l).token = c.token
      ∧ (setLoggerCall c l).userID = c.userID
      ∧ (setLoggerBody c l).logger = l :=
  fun _ _ => ⟨rfl, rfl, rfl, rfl, rfl, rfl, rfl⟩

end Rocket
